import Mathlib

/-!
Verification of the Review Aggregation & Disambiguation Engine of the
customer-reviews repository.

The definitions below are a shallow embedding of the Python code in
`src/mesop_review_visualizer/data_service.py` (`process_review_data`,
`fetch_processed_data`) and `src/review_visualizer/app.py`
(`augment_reviews_with_ui_name_globally`, `process_review_data`, `index`).
Python dictionaries become insertion-ordered association lists, Python
`Counter`s become insertion-ordered (key, count) lists, floats become `Rat`,
and a value that may fail `float()` coercion is a sum type.  Python
truthiness of optional strings (`None` and `""` are falsy) is made explicit.
-/

/-- A raw field value that Python would pass to `float(...)`:
either it coerces to a number or the coercion raises. -/
inductive RVal where
  | num (q : Rat)
  | bad
deriving DecidableEq

/-- A Python `datetime` value, reduced to the fields the engine can
observe (`strftime('%Y-%m')` reads year and month; the parser fills the
rest). -/
structure PyDateTime where
  year : Nat
  month : Nat
  day : Nat
  hour : Nat
  minute : Nat
  second : Nat
deriving DecidableEq

/-- The wire shape of `review_datetime`: a native datetime, a string
(to be fed to `datetime.fromisoformat`), or some other truthy object
(neither `str` nor `datetime`, which the code skips via `continue`). -/
inductive DtVal where
  | dt (d : PyDateTime)
  | str (s : String)
  | other
deriving DecidableEq

/-- The wire shape of `review_pros` / `review_cons`: a single string or a
list whose elements may be `None`. -/
inductive PCVal where
  | str (s : String)
  | list (l : List (Option String))
deriving DecidableEq

/-- One review record as fetched from the store.  `none` models an absent
key or a `None` value. -/
structure Review where
  display_name : Option String := none
  city : Option String := none
  ui_display_name : Option String := none
  review_rating : Option RVal := none
  review_pros : Option PCVal := none
  review_cons : Option PCVal := none
  review_text : Option String := none
  review_datetime : Option DtVal := none
  latitude : Option RVal := none
  longitude : Option RVal := none
deriving DecidableEq

/-- Python truthiness of an optional string: returns the string exactly
when it is present and non-empty. -/
def truthyStr : Option String → Option String
  | some s => if s = "" then none else some s
  | none => none

/-! ### Association-list model of Python dict / Counter -/

/-- Lookup in an insertion-ordered association list (Python `d[k]` /
`d.get(k)`). -/
def dlookup (m : List (String × α)) (k : String) : Option α :=
  match m with
  | [] => none
  | (k1, v) :: rest => if k1 = k then some v else dlookup rest k

/-- Update the value stored at an existing key, preserving dict order. -/
def dupdate (m : List (String × α)) (k : String) (f : α → α) : List (String × α) :=
  match m with
  | [] => []
  | (k1, v) :: rest => if k1 = k then (k1, f v) :: rest else (k1, v) :: dupdate rest k f

/-- Python dict assignment `d[k] = v`: overwrite in place if the key
exists, otherwise append (dicts preserve insertion order). -/
def dinsert (m : List (String × α)) (k : String) (v : α) : List (String × α) :=
  match m with
  | [] => [(k, v)]
  | (k1, v1) :: rest => if k1 = k then (k1, v) :: rest else (k1, v1) :: dinsert rest k v

/-- `Counter[k] += 1`: bump an existing count or append the key with
count 1. -/
def incrCounter (c : List (String × Nat)) (k : String) : List (String × Nat) :=
  match c with
  | [] => [(k, 1)]
  | (k1, v) :: rest => if k1 = k then (k1, v + 1) :: rest else (k1, v) :: incrCounter rest k

/-! ### String normalization (Python `.strip().lower()`, ASCII model) -/

/-- ASCII whitespace recognized by Python `str.strip()`. -/
def isPySpace (c : Char) : Bool :=
  c = ' ' ∨ c = '\t' ∨ c = '\n' ∨ c = '\r' ∨ c = '\x0b' ∨ c = '\x0c'

/-- Python `str.strip()` on the character list. -/
def stripChars (cs : List Char) : List Char :=
  ((cs.dropWhile isPySpace).reverse.dropWhile isPySpace).reverse

/-- Python `str.strip()`. -/
def pyStrip (s : String) : String := ⟨stripChars s.data⟩

/-- Python `str.lower()`, ASCII model. -/
def pyLowerChar (c : Char) : Char :=
  if 'A' ≤ c ∧ c ≤ 'Z' then Char.ofNat (c.toNat + 32) else c

/-- Python `str.lower()`. -/
def pyLower (s : String) : String := ⟨s.data.map pyLowerChar⟩

/-- The token a pro/con string is tallied under: `x.strip().lower()`. -/
def pcToken (s : String) : String := pyLower (pyStrip s)

/-! ### Name Disambiguator
`augment_reviews_with_ui_name_globally` in `app.py` (lines 10-30); the same
logic appears inline in `fetch_processed_data` (`data_service.py`
lines 167-193). -/

/-- The contribution of one record to the city set of `name`: its `city`
when both `display_name` and `city` are truthy and the name matches (the
`if display_name and city` guard when building `name_to_cities`). -/
def cityPairOf (name : String) (r : Review) : Option String :=
  match truthyStr r.display_name, truthyStr r.city with
  | some n, some c => if n = name then some c else none
  | _, _ => none

/-- The localities associated with `name` in the batch. -/
def cityAssociations (batch : List Review) (name : String) : List String :=
  batch.filterMap (cityPairOf name)

/-- `name in names_needing_disambiguation`: the set of cities seen for
`name` has at least two distinct members. -/
def needsDisambiguation (batch : List Review) (name : String) : Bool :=
  (cityAssociations batch name).any fun c1 =>
    (cityAssociations batch name).any fun c2 => c1 ≠ c2

/-- The `ui_display_name` assigned to one record by the augmentation loop. -/
def uiName (batch : List Review) (r : Review) : Option String :=
  match r.display_name with
  | none => none
  | some n =>
    match truthyStr r.city with
    | some c =>
      if needsDisambiguation batch n then some (n ++ " (" ++ c ++ ")") else some n
    | none => some n

/-- `augment_reviews_with_ui_name_globally`: copy every record and set its
`ui_display_name`. -/
def augmentReviews (batch : List Review) : List Review :=
  batch.map fun r => { r with ui_display_name := uiName batch r }

/-! ### Record Normalizer
Model of `datetime.fromisoformat` as used by `process_review_data`
(`data_service.py` lines 70-86), on the shapes the engine documents:
`YYYY-MM-DD`, optionally followed by `T` or a space and
`HH[:MM[:SS[.ffffff]]]`, optionally followed by `Z` or a `±HH:MM` offset. -/

/-- Numeric value of a decimal digit. -/
def digitVal (c : Char) : Option Nat :=
  if '0' ≤ c ∧ c ≤ '9' then some (c.toNat - 48) else none

/-- Parse exactly two digits. -/
def parse2 : List Char → Option (Nat × List Char)
  | c1 :: c2 :: rest =>
    match digitVal c1, digitVal c2 with
    | some a, some b => some (a * 10 + b, rest)
    | _, _ => none
  | _ => none

/-- Parse exactly four digits. -/
def parse4 : List Char → Option (Nat × List Char)
  | c1 :: c2 :: c3 :: c4 :: rest =>
    match digitVal c1, digitVal c2, digitVal c3, digitVal c4 with
    | some a, some b, some c, some d => some (((a * 10 + b) * 10 + c) * 10 + d, rest)
    | _, _, _, _ => none
  | _ => none

/-- Consume a maximal run of digits, returning how many were consumed. -/
def takeDigits : List Char → Nat × List Char
  | c :: rest =>
    if (digitVal c).isSome then
      let p := takeDigits rest
      (p.1 + 1, p.2)
    else (0, c :: rest)
  | [] => (0, [])

/-- Gregorian leap year. -/
def isLeap (y : Nat) : Bool := (y % 4 = 0 ∧ y % 100 ≠ 0) ∨ y % 400 = 0

/-- Days in a month, as `datetime` validates them. -/
def daysInMonth (y m : Nat) : Nat :=
  if m = 2 then (if isLeap y then 29 else 28)
  else if m = 4 ∨ m = 6 ∨ m = 9 ∨ m = 11 then 30
  else 31

/-- Parse the optional UTC-offset suffix: end of input, `Z`, or
`±HH:MM` with valid field ranges.  `fromisoformat` stores the offset in
the tzinfo; `strftime('%Y-%m')` reads the local fields, so the offset
value itself is discarded here. -/
def parseOffset (cs : List Char) : Bool :=
  match cs with
  | [] => true
  | ['Z'] => true
  | sign :: rest =>
    decide (sign = '+' ∨ sign = '-') &&
      (match parse2 rest with
      | some (oh, ':' :: rest2) =>
        decide (oh < 24) &&
          (match parse2 rest2 with
          | some (om, []) => decide (om < 60)
          | _ => false)
      | _ => false)

/-- Parse `HH[:MM[:SS[.ffffff]]]` followed by an optional offset. -/
def parseTimePart (cs : List Char) : Option (Nat × Nat × Nat) :=
  match parse2 cs with
  | some (h, rest) =>
    if h < 24 then
      match rest with
      | ':' :: rest2 =>
        match parse2 rest2 with
        | some (mi, rest3) =>
          if mi < 60 then
            match rest3 with
            | ':' :: rest4 =>
              match parse2 rest4 with
              | some (se, rest5) =>
                if se < 60 then
                  match rest5 with
                  | '.' :: rest6 =>
                    let p := takeDigits rest6
                    if (1 ≤ p.1 ∧ p.1 ≤ 6) ∧ parseOffset p.2 = true then some (h, mi, se)
                    else none
                  | _ => if parseOffset rest5 = true then some (h, mi, se) else none
                else none
              | none => none
            | _ => if parseOffset rest3 = true then some (h, mi, 0) else none
          else none
        | none => none
      | _ => if parseOffset rest = true then some (h, 0, 0) else none
    else none
  | none => none

/-- Model of `datetime.fromisoformat` on the documented shapes; any other
string raises `ValueError`, modeled as `none`. -/
def parseIso (s : String) : Option PyDateTime :=
  match parse4 s.data with
  | some (y, '-' :: rest1) =>
    match parse2 rest1 with
    | some (mo, '-' :: rest2) =>
      match parse2 rest2 with
      | some (d, rest3) =>
        if 1 ≤ y ∧ y ≤ 9999 ∧ 1 ≤ mo ∧ mo ≤ 12 ∧ 1 ≤ d ∧ d ≤ daysInMonth y mo then
          match rest3 with
          | [] => some ⟨y, mo, d, 0, 0, 0⟩
          | sep :: rest4 =>
            if sep = 'T' ∨ sep = ' ' then
              match parseTimePart rest4 with
              | some (h, mi, se) => some ⟨y, mo, d, h, mi, se⟩
              | none => none
            else none
        else none
      | _ => none
    | _ => none
  | _ => none

/-- Python truthiness of a `review_datetime` value. -/
def truthyDt : DtVal → Bool
  | .dt _ => true
  | .str s => s ≠ ""
  | .other => true

/-- The canonical datetime obtained from one wire value: native datetimes
pass through, strings go through `fromisoformat`, anything else is
skipped (`continue`). -/
def normalizeDt : DtVal → Option PyDateTime
  | .dt d => some d
  | .str s => parseIso s
  | .other => none

/-- The normalized timestamp of an optional field value, `none` when the
value is falsy, unparseable, or of an unsupported shape. -/
def dtNorm : Option DtVal → Option PyDateTime
  | some dv => if truthyDt dv then normalizeDt dv else none
  | none => none

/-- Zero-pad to two digits. -/
def pad2 (n : Nat) : String := if n < 10 then "0" ++ toString n else toString n

/-- Zero-pad to four digits. -/
def pad4 (n : Nat) : String :=
  if n < 10 then "000" ++ toString n
  else if n < 100 then "00" ++ toString n
  else if n < 1000 then "0" ++ toString n
  else toString n

/-- `current_dt.strftime('%Y-%m')`. -/
def fmtYM (d : PyDateTime) : String := pad4 d.year ++ "-" ++ pad2 d.month

/-! ### Rounding
Python `round(x, 2)` with round-half-to-even, on exact rationals. -/

/-- Exact rational addition, written out on numerators and denominators
(`Rat.divInt` normalizes; the library `Rat.add` is sealed against kernel
reduction, which concrete evaluations below need). -/
def ratAdd (a b : Rat) : Rat :=
  Rat.divInt (a.num * (b.den : Int) + b.num * (a.den : Int)) ((a.den : Int) * (b.den : Int))

/-- Exact division of a rational by a natural count. -/
def ratDivNat (a : Rat) (n : Nat) : Rat := Rat.divInt a.num ((a.den : Int) * (n : Int))

/-- Comparison `a <= b` on exact rationals. -/
def ratLe (a b : Rat) : Bool := !(Rat.blt b a)

/-- Round a rational to the nearest integer, halves to even, computed on
the reduced numerator and denominator. -/
def roundHalfEven (q : Rat) : Int :=
  let d : Int := (q.den : Int)
  let f : Int := Int.fdiv q.num d
  let r : Int := q.num - f * d
  if 2 * r < d then f
  else if d < 2 * r then f + 1
  else if f % 2 = 0 then f else f + 1

/-- `round(x, 2)`. -/
def round2 (q : Rat) : Rat :=
  Rat.divInt (roundHalfEven (Rat.divInt (q.num * 100) (q.den : Int))) 100

/-! ### The aggregation loop of `process_review_data`
(`data_service.py` lines 23-123). -/

/-- Tally one `review_pros` / `review_cons` field into a counter:
skip falsy fields, tally a single string as one token, tally each truthy
element of a list. -/
def tallyPC (c : List (String × Nat)) (v : Option PCVal) : List (String × Nat) :=
  match v with
  | none => c
  | some (.str s) => if s = "" then c else incrCounter c (pcToken s)
  | some (.list l) =>
    if l = [] then c
    else
      l.foldl
        (fun acc item =>
          match item with
          | some s => if s = "" then acc else incrCounter acc (pcToken s)
          | none => acc)
        c

/-- One record's contribution to `restaurant_ratings_agg` (value =
(total_rating, count)): the entry is created as soon as the key is truthy
and the rating is non-`None`; the sums are bumped only when `float()`
succeeds. -/
def ratingStep (m : List (String × Rat × Nat)) (key : Option String) (rv : Option RVal) :
    List (String × Rat × Nat) :=
  match truthyStr key, rv with
  | some name, some rval =>
    let m1 := if (dlookup m name).isSome then m else m ++ [(name, 0, 0)]
    match rval with
    | .num q => dupdate m1 name fun p => (ratAdd p.1 q, p.2 + 1)
    | .bad => m1
  | _, _ => m

/-- One record's contribution to `monthly_ts_data` (value =
(count, total_rating)): the bucket is created and its count bumped once
the timestamp normalizes; the rating sum is bumped only when `float()`
succeeds — the exception fires after the count increment. -/
def monthlyStep (m : List (String × Nat × Rat)) (dtv : Option DtVal) (rv : Option RVal) :
    List (String × Nat × Rat) :=
  match dtv, rv with
  | some dv, some rval =>
    if truthyDt dv then
      match normalizeDt dv with
      | none => m
      | some d =>
        let key := fmtYM d
        let m1 := if (dlookup m key).isSome then m else m ++ [(key, 0, 0)]
        let m2 := dupdate m1 key fun p => (p.1 + 1, p.2)
        match rval with
        | .num q => dupdate m2 key fun p => (p.1, ratAdd p.2 q)
        | .bad => m2
    else m
  | _, _ => m

/-- The four local accumulators of `process_review_data`. -/
structure AggState where
  pros : List (String × Nat)
  cons : List (String × Nat)
  ratings : List (String × Rat × Nat)
  monthly : List (String × Nat × Rat)

/-- The body of the `for review in reviews_list` loop. -/
def processOne (st : AggState) (r : Review) : AggState where
  pros := tallyPC st.pros r.review_pros
  cons := tallyPC st.cons r.review_cons
  ratings := ratingStep st.ratings r.ui_display_name r.review_rating
  monthly := monthlyStep st.monthly r.review_datetime r.review_rating

/-- `average_restaurant_ratings`: per key, `round(total/count, 2)` when
`count > 0`, else the defaulting branch yields `0.0`. -/
def averageRatings (m : List (String × Rat × Nat)) : List (String × Rat) :=
  m.map fun e => (e.1, if 0 < e.2.2 then round2 (ratDivNat e.2.1 e.2.2) else 0)

/-- Descending-by-count comparison used by `Counter.most_common` (Python
`sorted` is stable, so insertion order breaks ties). -/
def byCountDesc (a b : String × Nat) : Prop := b.2 ≤ a.2

instance : DecidableRel byCountDesc := fun a b => Nat.decLe b.2 a.2

instance : IsTotal (String × Nat) byCountDesc :=
  ⟨fun a b => (Nat.le_total b.2 a.2).elim Or.inl Or.inr⟩

instance : IsTrans (String × Nat) byCountDesc :=
  ⟨fun _ _ _ h1 h2 => Nat.le_trans h2 h1⟩

/-- `Counter.most_common(n)`: stable sort by count descending, first `n`. -/
def mostCommon (n : Nat) (c : List (String × Nat)) : List (String × Nat) :=
  (List.insertionSort byCountDesc c).take n

/-- Top-10 extraction of `data_service.process_review_data`: take the ten
most common entries, then drop empty and placeholder tokens. -/
def topTokens (c : List (String × Nat)) : List (String × Nat) :=
  if c = [] then []
  else
    (mostCommon 10 c).filter fun kv =>
      decide (0 < kv.2 ∧ kv.1 ≠ "" ∧ pyStrip kv.1 ≠ "" ∧ pyLower kv.1 ≠ "empty")

/-- Top-10 extraction of `app.process_review_data` (no placeholder
filter). -/
def appTopTokens (c : List (String × Nat)) : List (String × Nat) :=
  if c = [] then []
  else
    (mostCommon 10 c).filter fun kv =>
      decide (0 < kv.2 ∧ 0 < kv.1.length ∧ kv.1 ≠ "")

/-- Lexicographic order on character lists (Python string `<`). -/
def lexLe : List Char → List Char → Bool
  | [], _ => true
  | _ :: _, [] => false
  | a :: as1, b :: bs1 => if a < b then true else if b < a then false else lexLe as1 bs1

/-- `sorted(keys)` on strings, by code point. -/
def sortStrings (l : List String) : List String :=
  List.insertionSort (fun a b : String => lexLe a.data b.data = true) l

/-- The `reviews_over_time_chart_data` dict once it is non-default. -/
structure ChartData where
  labels : List String
  review_counts : List Nat
  average_ratings : List Rat
deriving DecidableEq

/-- Build the chart dict from `monthly_ts_data`; an empty accumulator
leaves the default empty dict, modeled as `none`. -/
def chartOfMonthly (m : List (String × Nat × Rat)) : Option ChartData :=
  if m = [] then none
  else
    let sortedMonths := sortStrings (m.map Prod.fst)
    some
      { labels := sortedMonths
        review_counts := sortedMonths.map fun k => ((dlookup m k).getD (0, 0)).1
        average_ratings := sortedMonths.map fun k =>
          let p := (dlookup m k).getD (0, 0)
          if 0 < p.1 then round2 (ratDivNat p.2 p.1) else 0 }

/-- The tuple returned by `process_review_data`. -/
structure ProcessedData where
  top_pros : List (String × Nat)
  top_cons : List (String × Nat)
  average_restaurant_ratings : List (String × Rat)
  reviews_over_time_chart_data : Option ChartData
deriving DecidableEq

/-- `data_service.process_review_data` (lines 8-123). -/
def processReviewData (batch : List Review) : ProcessedData :=
  let st := batch.foldl processOne ⟨[], [], [], []⟩
  { top_pros := topTokens st.pros
    top_cons := topTokens st.cons
    average_restaurant_ratings := averageRatings st.ratings
    reviews_over_time_chart_data := chartOfMonthly st.monthly }

/-! ### Geo Marker Builder
Map-data preparation of `fetch_processed_data` (`data_service.py`
lines 200-247) and of the `index` route (`app.py` lines 170-228). -/

/-- One step of filling `unique_restaurants_for_map` in
`fetch_processed_data`: first successfully parsed coordinate pair wins. -/
def coordStep (m : List (String × Rat × Rat)) (r : Review) : List (String × Rat × Rat) :=
  match truthyStr r.display_name, r.latitude, r.longitude with
  | some name, some lv, some gv =>
    if (dlookup m name).isSome then m
    else
      match lv, gv with
      | .num a, .num b => m ++ [(name, a, b)]
      | _, _ => m
  | _, _, _ => m

/-- One step of filling `unique_restaurants_info_map` in the `index`
route of `app.py`: a parsed, in-range pair is assigned unconditionally,
overwriting any earlier pair for the same name. -/
def appCoordStep (m : List (String × Rat × Rat)) (r : Review) : List (String × Rat × Rat) :=
  match truthyStr r.display_name, r.latitude, r.longitude with
  | some name, some lv, some gv =>
    match lv, gv with
    | .num a, .num b =>
      if ratLe (Rat.divInt (-90) 1) a ∧ ratLe a (Rat.divInt 90 1) ∧
          ratLe (Rat.divInt (-180) 1) b ∧ ratLe b (Rat.divInt 180 1) then
        dinsert m name (a, b)
      else m
    | _, _ => m
  | _, _, _ => m

/-- `restaurant_aggregates_for_map`: the rating aggregation keyed by the
original `display_name`. -/
def mapAgg (batch : List Review) : List (String × Rat × Nat) :=
  batch.foldl (fun m r => ratingStep m r.display_name r.review_rating) []

/-- A map marker dict. -/
structure Marker where
  name : String
  lat : Rat
  lng : Rat
  avg_rating : Rat
  review_count : Nat
deriving DecidableEq

/-- Compile the final marker list from the coordinate dict and the
aggregates, with the `.get(..., 0.0)` / `.get(..., {}).get('count', 0)`
defaults. -/
def compileMarkers (uniq : List (String × Rat × Rat)) (agg : List (String × Rat × Nat)) :
    List Marker :=
  let avgs := averageRatings agg
  uniq.map fun e =>
    { name := e.1
      lat := e.2.1
      lng := e.2.2
      avg_rating := (dlookup avgs e.1).getD 0
      review_count := ((dlookup agg e.1).map fun p => p.2).getD 0 }

/-- `restaurants_map_data` as built by `fetch_processed_data` from the
augmented batch. -/
def restaurantsMapData (batch : List Review) : List Marker :=
  compileMarkers (batch.foldl coordStep []) (mapAgg batch)

/-- `restaurants_map_data` as built by the `index` route of `app.py`. -/
def appMapData (batch : List Review) : List Marker :=
  compileMarkers (batch.foldl appCoordStep []) (mapAgg batch)

/-- The successfully parsed coordinate pair a record offers for a given
name: present when the record carries that truthy name and both
coordinates coerce to numbers. -/
def vcoordOf (name : String) (r : Review) : Option (Rat × Rat) :=
  match truthyStr r.display_name, r.latitude, r.longitude with
  | some n, some (.num a), some (.num b) => if n = name then some (a, b) else none
  | _, _, _ => none

/-- The first coordinate pair, in original batch order, that successfully
parses to numbers for a given name (the spec-side description of the
marker position). -/
def firstValidCoord (batch : List Review) (name : String) : Option (Rat × Rat) :=
  batch.findSome? (vcoordOf name)

/-! ### Per-component views of the aggregation fold -/

/-- The pros counter accumulated over a batch. -/
def prosCounts (batch : List Review) : List (String × Nat) :=
  batch.foldl (fun c r => tallyPC c r.review_pros) []

/-- The cons counter accumulated over a batch. -/
def consCounts (batch : List Review) : List (String × Nat) :=
  batch.foldl (fun c r => tallyPC c r.review_cons) []

/-- `restaurant_ratings_agg` accumulated over a batch. -/
def ratingsAgg (batch : List Review) : List (String × Rat × Nat) :=
  batch.foldl (fun m r => ratingStep m r.ui_display_name r.review_rating) []

/-- `monthly_ts_data` accumulated over a batch. -/
def monthlyAgg (batch : List Review) : List (String × Nat × Rat) :=
  batch.foldl (fun m r => monthlyStep m r.review_datetime r.review_rating) []

/-- The spec-side reading of an ambiguous base name: the batch associates
it with two distinct non-empty localities, through records that carry the
name and a locality. -/
def AmbiguousIn (batch : List Review) (n : String) : Prop :=
  ∃ r1 ∈ batch, ∃ r2 ∈ batch, ∃ c1 c2 : String,
    truthyStr r1.display_name = some n ∧ truthyStr r1.city = some c1 ∧
    truthyStr r2.display_name = some n ∧ truthyStr r2.city = some c2 ∧ c1 ≠ c2

/-- The keys of an association list are pairwise distinct (the invariant
of every Python dict modeled here). -/
def keysNodup (m : List (String × α)) : Prop := (m.map Prod.fst).Nodup

/-! ### Concrete records for the closed witness and counterexample
theorems -/

/-- Sample: name A in city X with rating 5 and one pro. -/
def exAX : Review :=
  { display_name := some "A", city := some "X", ui_display_name := some "A (X)",
    review_rating := some (.num 5), review_pros := some (.str "Nice") }

/-- Sample: name A in city Y with rating 3 and one con. -/
def exAY : Review :=
  { display_name := some "A", city := some "Y", ui_display_name := some "A (Y)",
    review_rating := some (.num 3), review_cons := some (.str "Slow") }

/-- Sample: coordinates (1, 1) for name A. -/
def exC1 : Review :=
  { display_name := some "A", latitude := some (.num 1), longitude := some (.num 1) }

/-- Sample: later coordinates (2, 2) for the same name A. -/
def exC2 : Review :=
  { display_name := some "A", latitude := some (.num 2), longitude := some (.num 2) }

/-- Sample: a review whose rating is present but fails `float()`. -/
def exBadRate : Review := { ui_display_name := some "R", review_rating := some .bad }

/-- Sample: parseable timestamp with a rating that fails `float()`. -/
def exBadTs : Review :=
  { review_datetime := some (.str "2023-01-10"), review_rating := some .bad }

/-- Sample: eleven distinct pro tokens, the placeholder first. -/
def exTopPros : Review :=
  { review_pros := some (.list
      [some "empty", some "a1", some "a2", some "a3", some "a4", some "a5",
       some "a6", some "a7", some "a8", some "a9", some "a10"]),
    review_cons := some (.str "meh") }

/-- Sample: one plain pro and con. -/
def exPlain : Review :=
  { ui_display_name := some "P", review_rating := some (.num 4),
    review_pros := some (.str "good"), review_cons := some (.str "slow"),
    review_datetime := some (.str "2023-05-01") }

/-- Sample: coordinates for name B but no coercible rating. -/
def exBNoRate : Review :=
  { display_name := some "B", latitude := some (.num 7), longitude := some (.num 8),
    review_rating := some .bad }

/-! ### Dictionary lemmas -/

theorem dlookup_append_some {m : List (String × α)} {k : String} {v : α}
    (l : List (String × α)) (h : dlookup m k = some v) : dlookup (m ++ l) k = some v := by
  induction m with
  | nil => simp [dlookup] at h
  | cons e rest ih =>
    obtain ⟨k1, v1⟩ := e
    by_cases hk : k1 = k
    · simp [dlookup, hk] at h ⊢
      exact h
    · simp [dlookup, hk] at h ⊢
      exact ih h

theorem dlookup_append_none {m : List (String × α)} {k : String}
    (l : List (String × α)) (h : dlookup m k = none) : dlookup (m ++ l) k = dlookup l k := by
  induction m with
  | nil => rfl
  | cons e rest ih =>
    obtain ⟨k1, v1⟩ := e
    by_cases hk : k1 = k
    · simp [dlookup, hk] at h
    · simp [dlookup, hk] at h ⊢
      exact ih h

theorem dlookup_dupdate_ne {k1 k2 : String} (m : List (String × α)) (f : α → α)
    (h : k1 ≠ k2) : dlookup (dupdate m k1 f) k2 = dlookup m k2 := by
  induction m with
  | nil => rfl
  | cons e rest ih =>
    obtain ⟨ka, va⟩ := e
    by_cases hk : ka = k1
    · subst hk
      simp [dupdate, dlookup, h]
    · by_cases hk2 : ka = k2
      · subst hk2
        simp [dupdate, dlookup, hk]
      · simp [dupdate, dlookup, hk, hk2, ih]

theorem dlookup_dupdate_self (m : List (String × α)) (k : String) (f : α → α) :
    dlookup (dupdate m k f) k = (dlookup m k).map f := by
  induction m with
  | nil => rfl
  | cons e rest ih =>
    obtain ⟨ka, va⟩ := e
    by_cases hk : ka = k
    · simp [dupdate, dlookup, hk]
    · simp [dupdate, dlookup, hk, ih]

theorem dlookup_eq_none_iff {m : List (String × α)} {k : String} :
    dlookup m k = none ↔ k ∉ m.map Prod.fst := by
  induction m with
  | nil => simp [dlookup]
  | cons e rest ih =>
    obtain ⟨ka, va⟩ := e
    by_cases hk : ka = k
    · simp [dlookup, hk]
    · simp [dlookup, hk, ih, Ne.symm hk]

theorem mem_of_dlookup {m : List (String × α)} {k : String} {v : α}
    (h : dlookup m k = some v) : (k, v) ∈ m := by
  induction m with
  | nil => simp [dlookup] at h
  | cons e rest ih =>
    obtain ⟨ka, va⟩ := e
    by_cases hk : ka = k
    · simp [dlookup, hk] at h
      simp [hk, h]
    · simp [dlookup, hk] at h
      exact List.mem_cons_of_mem _ (ih h)

theorem dlookup_of_mem_nodup {m : List (String × α)} {k : String} {v : α}
    (h : (k, v) ∈ m) (hnd : keysNodup m) : dlookup m k = some v := by
  induction m with
  | nil => simp at h
  | cons e rest ih =>
    obtain ⟨ka, va⟩ := e
    unfold keysNodup at hnd
    simp only [List.map_cons, List.nodup_cons] at hnd
    rcases List.mem_cons.mp h with heq | hmem
    · obtain ⟨h1, h2⟩ := Prod.ext_iff.mp heq
      subst h1
      subst h2
      simp [dlookup]
    · by_cases hk : ka = k
      · exfalso
        apply hnd.1
        rw [hk]
        exact List.mem_map_of_mem Prod.fst hmem
      · simp [dlookup, hk]
        exact ih hmem hnd.2

theorem dlookup_averageRatings (m : List (String × Rat × Nat)) (k : String) :
    dlookup (averageRatings m) k =
      (dlookup m k).map fun p => if 0 < p.2 then round2 (ratDivNat p.1 p.2) else 0 := by
  induction m with
  | nil => rfl
  | cons e rest ih =>
    obtain ⟨ka, va⟩ := e
    by_cases hk : ka = k
    · simp [averageRatings, dlookup, hk]
    · simp only [averageRatings, List.map_cons] at ih ⊢
      simp [dlookup, hk, ih]

/-! ### Disambiguator lemmas -/

theorem cityPairOf_eq_some {name : String} {r : Review} {c : String} :
    cityPairOf name r = some c ↔
      truthyStr r.display_name = some name ∧ truthyStr r.city = some c := by
  unfold cityPairOf
  rcases h1 : truthyStr r.display_name with _ | n
  · simp
  · rcases h2 : truthyStr r.city with _ | c2
    · simp
    · by_cases h3 : n = name
      · subst h3
        simp
      · simp [h3]

theorem mem_cityAssociations {batch : List Review} {name c : String} :
    c ∈ cityAssociations batch name ↔
      ∃ r ∈ batch, truthyStr r.display_name = some name ∧ truthyStr r.city = some c := by
  simp [cityAssociations, List.mem_filterMap, cityPairOf_eq_some]

theorem needsDisambiguation_iff {batch : List Review} {n : String} :
    needsDisambiguation batch n = true ↔ AmbiguousIn batch n := by
  unfold needsDisambiguation AmbiguousIn
  simp only [List.any_eq_true, decide_eq_true_eq, mem_cityAssociations]
  constructor
  · rintro ⟨c1, ⟨r1, hr1, h1, h1c⟩, c2, ⟨r2, hr2, h2, h2c⟩, hne⟩
    exact ⟨r1, hr1, r2, hr2, c1, c2, h1, h1c, h2, h2c, hne⟩
  · rintro ⟨r1, hr1, r2, hr2, c1, c2, h1, h1c, h2, h2c, hne⟩
    exact ⟨c1, ⟨r1, hr1, h1, h1c⟩, c2, ⟨r2, hr2, h2, h2c⟩, hne⟩

theorem needsDisambiguation_perm {b1 b2 : List Review} (h : b1.Perm b2) (n : String) :
    needsDisambiguation b1 n = needsDisambiguation b2 n := by
  have key : ∀ l1 l2 : List String, l1 ⊆ l2 →
      ((l1.any fun c1 => l1.any fun c2 => c1 ≠ c2) = true) →
      ((l2.any fun c1 => l2.any fun c2 => c1 ≠ c2) = true) := by
    intro l1 l2 hsub hany
    simp only [List.any_eq_true, decide_eq_true_eq] at hany ⊢
    obtain ⟨c1, hc1, c2, hc2, hne⟩ := hany
    exact ⟨c1, hsub hc1, c2, hsub hc2, hne⟩
  have h12 := key _ _ (h.filterMap (cityPairOf n)).subset
  have h21 := key _ _ (h.filterMap (cityPairOf n)).symm.subset
  unfold needsDisambiguation cityAssociations
  cases hb1 : (b1.filterMap (cityPairOf n)).any fun c1 =>
      (b1.filterMap (cityPairOf n)).any fun c2 => c1 ≠ c2 with
  | true => exact (h12 hb1).symm
  | false =>
    cases hb2 : (b2.filterMap (cityPairOf n)).any fun c1 =>
        (b2.filterMap (cityPairOf n)).any fun c2 => c1 ≠ c2 with
    | true =>
      have hcontra := h21 hb2
      rw [hb1] at hcontra
      simp at hcontra
    | false => rfl

/-- C1: for every batch, a record whose base name is associated in the
batch with two or more distinct non-empty localities and whose own
locality is non-empty receives `ui_display_name = f"{base_name}
({locality})"`; a record whose locality is absent or empty, or whose base
name is not ambiguous, receives `ui_display_name = base_name` unchanged;
the augmented batch contains exactly that copy of the record. -/
theorem claim1_display_key (batch : List Review) (r : Review) (n : String)
    (hr : r ∈ batch) (hn : r.display_name = some n) :
    ({ r with ui_display_name := uiName batch r } ∈ augmentReviews batch)
  ∧ (∀ c, AmbiguousIn batch n → truthyStr r.city = some c →
      uiName batch r = some (n ++ " (" ++ c ++ ")"))
  ∧ (truthyStr r.city = none → uiName batch r = some n)
  ∧ (¬ AmbiguousIn batch n → uiName batch r = some n) := by
  refine ⟨List.mem_map_of_mem _ hr, ?_, ?_, ?_⟩
  · intro c ha hc
    simp [uiName, hn, hc, needsDisambiguation_iff.mpr ha]
  · intro hc
    simp [uiName, hn, hc]
  · intro hna
    have hfalse : needsDisambiguation batch n = false := by
      cases hb : needsDisambiguation batch n with
      | true => exact absurd (needsDisambiguation_iff.mp hb) hna
      | false => rfl
    cases hc : truthyStr r.city with
    | none => simp [uiName, hn, hc]
    | some c => simp [uiName, hn, hc, hfalse]

/-- Witness for C1 at a concrete two-record batch whose name A occurs in
cities X and Y. -/
theorem claim1_display_key_witness :
    exAX ∈ [exAX, exAY] ∧ exAX.display_name = some "A" ∧
    (({ exAX with ui_display_name := uiName [exAX, exAY] exAX } ∈ augmentReviews [exAX, exAY])
      ∧ (∀ c, AmbiguousIn [exAX, exAY] "A" → truthyStr exAX.city = some c →
          uiName [exAX, exAY] exAX = some ("A" ++ " (" ++ c ++ ")"))
      ∧ (truthyStr exAX.city = none → uiName [exAX, exAY] exAX = some "A")
      ∧ (¬ AmbiguousIn [exAX, exAY] "A" → uiName [exAX, exAY] exAX = some "A")) :=
  ⟨by decide, by decide, claim1_display_key [exAX, exAY] exAX "A" (by decide) (by decide)⟩

/-- C9: the `ui_display_name` computed for a given record is the same in
any permutation of the batch — the disambiguation outcome depends only on
the set of (name, locality) associations, not on record order. -/
theorem claim9_order_independence (b1 b2 : List Review) (h : b1.Perm b2) (r : Review) :
    uiName b1 r = uiName b2 r := by
  cases hd : r.display_name with
  | none => simp [uiName, hd]
  | some n =>
    cases hc : truthyStr r.city with
    | none => simp [uiName, hd, hc]
    | some c => simp [uiName, hd, hc, needsDisambiguation_perm h n]

/-- Witness for C9 at a concrete batch and its swap. -/
theorem claim9_order_independence_witness :
    ([exAX, exAY].Perm [exAY, exAX]) ∧
    uiName [exAX, exAY] exAX = uiName [exAY, exAX] exAX :=
  ⟨List.Perm.swap exAY exAX [],
   claim9_order_independence _ _ (List.Perm.swap exAY exAX []) exAX⟩

/-- C3 (code bug): on the empty batch every output is the empty value, but
the time-series structure is the default empty dict (`none`, no `labels`,
`review_counts` or `average_ratings` keys) — not the claimed structure of
three present zero-length sequences; the repository's own test
(`test_data_service.py`, empty-input test) asserts the three-list form. -/
theorem claim3_empty_batch_outputs :
    processReviewData [] =
      { top_pros := [], top_cons := [], average_restaurant_ratings := [],
        reviews_over_time_chart_data := none }
  ∧ restaurantsMapData [] = []
  ∧ (processReviewData []).reviews_over_time_chart_data ≠
      some { labels := [], review_counts := [], average_ratings := [] } := by
  refine ⟨rfl, rfl, by decide⟩

/-- C5 (code bug): a record whose timestamp parses but whose rating fails
`float()` coercion still creates the monthly bucket and increments its
count (the exception fires after `count += 1`), leaving the rating sum at
zero — the per-record bucket update is not all-or-nothing. -/
theorem claim5_partial_bucket_update :
    (∀ q : Rat, exBadTs.review_rating ≠ some (RVal.num q))
  ∧ dtNorm exBadTs.review_datetime = some ⟨2023, 1, 10, 0, 0, 0⟩
  ∧ processReviewData [exBadTs] =
      { top_pros := [], top_cons := [], average_restaurant_ratings := [],
        reviews_over_time_chart_data :=
          some { labels := ["2023-01"], review_counts := [1], average_ratings := [0] } } := by
  refine ⟨(fun q h => by simp [exBadTs] at h), by decide, by decide⟩

/-! ### Aggregation-fold lemmas -/

theorem foldl_processOne (batch : List Review) (s : AggState) :
    batch.foldl processOne s =
      { pros := batch.foldl (fun c r => tallyPC c r.review_pros) s.pros
        cons := batch.foldl (fun c r => tallyPC c r.review_cons) s.cons
        ratings := batch.foldl (fun m r => ratingStep m r.ui_display_name r.review_rating) s.ratings
        monthly := batch.foldl (fun m r => monthlyStep m r.review_datetime r.review_rating) s.monthly } := by
  induction batch generalizing s with
  | nil => rfl
  | cons r rest ih =>
    rw [List.foldl_cons, ih]
    rfl

theorem processReviewData_components (batch : List Review) :
    processReviewData batch =
      { top_pros := topTokens (prosCounts batch)
        top_cons := topTokens (consCounts batch)
        average_restaurant_ratings := averageRatings (ratingsAgg batch)
        reviews_over_time_chart_data := chartOfMonthly (monthlyAgg batch) } := by
  unfold processReviewData prosCounts consCounts ratingsAgg monthlyAgg
  rw [foldl_processOne]

theorem dlookup_singleton_ne {k1 k2 : String} (v : α) (h : k1 ≠ k2) :
    dlookup [(k1, v)] k2 = none := by
  simp [dlookup, h]

theorem dlookup_ensureKey_self (m : List (String × α)) (k : String) (v0 : α) :
    dlookup (if (dlookup m k).isSome then m else m ++ [(k, v0)]) k =
      some ((dlookup m k).getD v0) := by
  cases hd : dlookup m k with
  | some p => simp [hd]
  | none => simp [hd, dlookup_append_none _ hd, dlookup]

theorem dlookup_ensureKey_ne {k k2 : String} (m : List (String × α)) (v0 : α) (h : k ≠ k2) :
    dlookup (if (dlookup m k).isSome then m else m ++ [(k, v0)]) k2 = dlookup m k2 := by
  cases hd : dlookup m k with
  | some p => simp [hd]
  | none =>
    cases hd2 : dlookup m k2 with
    | some p => simp [hd, dlookup_append_some _ hd2, hd2]
    | none => simp [hd, dlookup_append_none _ hd2, dlookup_singleton_ne _ h, hd2]

theorem dlookup_ratingStep (m : List (String × Rat × Nat)) (key : Option String)
    (rv : Option RVal) (name : String) :
    dlookup (ratingStep m key rv) name =
      if truthyStr key = some name ∧ rv.isSome then
        match dlookup m name, rv with
        | some p, some (.num q) => some (ratAdd p.1 q, p.2 + 1)
        | none, some (.num q) => some (ratAdd 0 q, 0 + 1)
        | some p, _ => some p
        | none, _ => some ((0 : Rat), (0 : Nat))
      else dlookup m name := by
  rcases hk : truthyStr key with _ | nm
  · unfold ratingStep
    rw [hk]
    rcases rv with _ | rval
    · simp [hk]
    · simp [hk]
  · unfold ratingStep
    rw [hk]
    rcases hv : rv with _ | rval
    · simp [hk]
    · by_cases hnm : nm = name
      · subst hnm
        have hens := dlookup_ensureKey_self m nm ((0 : Rat), (0 : Nat))
        rcases rval with q | _
        · rw [dlookup_dupdate_self, hens]
          cases hd : dlookup m nm <;> simp [hd, hk]
        · rw [hens]
          cases hd : dlookup m nm <;> simp [hd, hk]
      · have hens := dlookup_ensureKey_ne m ((0 : Rat), (0 : Nat)) hnm
        rcases rval with q | _
        · rw [dlookup_dupdate_ne _ _ hnm, hens]
          cases hd : dlookup m name <;> simp [hd, hk, hnm]
        · rw [hens]
          cases hd : dlookup m name <;> simp [hd, hk, hnm]

theorem dlookup_ratingFold_isSome (keyf : Review → Option String) (batch : List Review)
    (m : List (String × Rat × Nat)) (name : String) :
    (dlookup (batch.foldl (fun acc r => ratingStep acc (keyf r) r.review_rating) m) name).isSome
      ↔ (dlookup m name).isSome ∨
        ∃ r ∈ batch, truthyStr (keyf r) = some name ∧ r.review_rating.isSome := by
  induction batch generalizing m with
  | nil => simp
  | cons r rest ih =>
    rw [List.foldl_cons, ih]
    have hstep : (dlookup (ratingStep m (keyf r) r.review_rating) name).isSome
        ↔ (dlookup m name).isSome ∨
          (truthyStr (keyf r) = some name ∧ r.review_rating.isSome) := by
      rw [dlookup_ratingStep]
      by_cases hcond : truthyStr (keyf r) = some name ∧ r.review_rating.isSome
      · rw [if_pos hcond]
        rcases hv : r.review_rating with _ | rval
        · rw [hv] at hcond
          simp at hcond
        · rcases rval with q | _ <;>
            cases hd : dlookup m name <;> simp [hd, hcond]
      · rw [if_neg hcond]
        constructor
        · exact Or.inl
        · rintro (h | hcond2)
          · exact h
          · exact absurd hcond2 hcond
    rw [hstep]
    simp only [List.mem_cons]
    constructor
    · rintro ((h | hcond) | ⟨r2, h2, hp⟩)
      · exact Or.inl h
      · exact Or.inr ⟨r, Or.inl rfl, hcond⟩
      · exact Or.inr ⟨r2, Or.inr h2, hp⟩
    · rintro (h | ⟨r2, hmem, hp⟩)
      · exact Or.inl (Or.inl h)
      · rcases hmem with rfl | h2m
        · exact Or.inl (Or.inr hp)
        · exact Or.inr ⟨r2, h2m, hp⟩

theorem dlookup_ratingFold_no_num (keyf : Review → Option String) (batch : List Review)
    (m : List (String × Rat × Nat)) (name : String)
    (hbad : ∀ r ∈ batch, truthyStr (keyf r) = some name →
      ∀ q, r.review_rating ≠ some (RVal.num q))
    (hm : dlookup m name = none ∨ dlookup m name = some ((0 : Rat), (0 : Nat))) :
    dlookup (batch.foldl (fun acc r => ratingStep acc (keyf r) r.review_rating) m) name = none ∨
    dlookup (batch.foldl (fun acc r => ratingStep acc (keyf r) r.review_rating) m) name
      = some ((0 : Rat), (0 : Nat)) := by
  induction batch generalizing m with
  | nil => simpa using hm
  | cons r rest ih =>
    rw [List.foldl_cons]
    apply ih
    · intro r2 h2
      exact hbad r2 (List.mem_cons_of_mem _ h2)
    · rw [dlookup_ratingStep]
      by_cases hcond : truthyStr (keyf r) = some name ∧ r.review_rating.isSome
      · rw [if_pos hcond]
        rcases hv : r.review_rating with _ | rval
        · rw [hv] at hcond
          simp at hcond
        · rcases rval with q | _
          · exact absurd hv (hbad r (List.mem_cons_self ..) hcond.1 q)
          · rcases hm with hm | hm <;> rw [hm] <;> simp
      · rw [if_neg hcond]
        exact hm

/-- Counterexample to C4 as stated: a record whose `ui_display_name` is
"R" and whose rating is present but fails `float()` coercion still
produces the key "R" in `average_restaurant_ratings`, with the defaulted
value `0.0`, although zero ratings coerced. -/
theorem claim4_cex_default_zero :
    exBadRate.ui_display_name = some "R"
  ∧ exBadRate.review_rating = some RVal.bad
  ∧ (processReviewData [exBadRate]).average_restaurant_ratings = [("R", 0)] :=
  ⟨rfl, rfl, by decide⟩

/-- C4 amended: a key is present in `average_restaurant_ratings` exactly
when that display key is non-empty and occurs with at least one
non-`None` rating — a key all of whose ratings fail coercion is still
created, and the defaulting branch then gives it the value `0.0`. -/
theorem claim4_average_rating_keys (batch : List Review) (name : String) :
    ((dlookup (processReviewData batch).average_restaurant_ratings name).isSome ↔
      ∃ r ∈ batch, truthyStr r.ui_display_name = some name ∧ r.review_rating.isSome)
  ∧ ((∀ r ∈ batch, truthyStr r.ui_display_name = some name →
        ∀ q, r.review_rating ≠ some (RVal.num q)) →
      dlookup (processReviewData batch).average_restaurant_ratings name = none ∨
      dlookup (processReviewData batch).average_restaurant_ratings name = some 0) := by
  rw [processReviewData_components]
  constructor
  · rw [dlookup_averageRatings]
    unfold ratingsAgg
    have hmap : ∀ o : Option (Rat × Nat),
        (Option.map (fun p => if 0 < p.2 then round2 (ratDivNat p.1 p.2) else 0) o).isSome
          = o.isSome := by
      intro o
      cases o <;> rfl
    rw [hmap, dlookup_ratingFold_isSome]
    simp [dlookup]
  · intro hbad
    rw [dlookup_averageRatings]
    unfold ratingsAgg
    rcases dlookup_ratingFold_no_num (fun r => r.ui_display_name) batch [] name hbad
        (Or.inl rfl) with hz | hz <;> rw [hz]
    · exact Or.inl rfl
    · exact Or.inr (by simp)

/-- Witness for the amended C4 at a concrete one-record batch. -/
theorem claim4_average_rating_keys_witness :
    ((dlookup (processReviewData [exPlain]).average_restaurant_ratings "P").isSome ↔
      ∃ r ∈ [exPlain], truthyStr r.ui_display_name = some "P" ∧ r.review_rating.isSome)
  ∧ ((∀ r ∈ [exPlain], truthyStr r.ui_display_name = some "P" →
        ∀ q, r.review_rating ≠ some (RVal.num q)) →
      dlookup (processReviewData [exPlain]).average_restaurant_ratings "P" = none ∨
      dlookup (processReviewData [exPlain]).average_restaurant_ratings "P" = some 0) :=
  claim4_average_rating_keys [exPlain] "P"

/-! ### Geo-marker lemmas -/

theorem coordStep_dlookup (m : List (String × Rat × Rat)) (r : Review) (name : String) :
    dlookup (coordStep m r) name =
      match dlookup m name with
      | some v => some v
      | none => vcoordOf name r := by
  unfold coordStep vcoordOf
  rcases hk : truthyStr r.display_name with _ | nm
  · cases hd : dlookup m name <;>
      rcases r.latitude with _ | lv <;> rcases r.longitude with _ | gv <;> simp [hd]
  · rcases hla : r.latitude with _ | lv
    · cases hd : dlookup m name <;> simp [hd]
    · rcases hlo : r.longitude with _ | gv
      · cases lv <;> cases hd : dlookup m name <;> simp [hd]
      · rcases lv with a | _
        · rcases gv with b | _
          · by_cases hnm : nm = name
            · subst hnm
              cases hd : dlookup m nm with
              | some v => simp [hd]
              | none =>
                have hfalse : (dlookup m nm).isSome = false := by
                  rw [hd]
                  rfl
                simp [hfalse, hd, dlookup_append_none _ hd, dlookup]
            · cases hd2 : (dlookup m nm).isSome with
              | true => cases hd : dlookup m name <;> simp [hd, hd2, hnm]
              | false =>
                have hnone : dlookup m nm = none := by
                  cases hx : dlookup m nm
                  · rfl
                  · rw [hx] at hd2
                    cases hd2
                cases hd : dlookup m name with
                | some v => simp [hd, hd2, hnm, dlookup_append_some _ hd]
                | none => simp [hd, hd2, hnm, dlookup_append_none _ hd, dlookup_singleton_ne _ hnm]
          · cases hd : dlookup m name <;> simp [hd, ite_self]
        · cases gv <;> cases hd : dlookup m name <;> simp [hd, ite_self]

theorem dlookup_coordFold (batch : List Review) (m : List (String × Rat × Rat))
    (name : String) :
    dlookup (batch.foldl coordStep m) name =
      match dlookup m name with
      | some v => some v
      | none => firstValidCoord batch name := by
  induction batch generalizing m with
  | nil => cases hd : dlookup m name <;> simp [firstValidCoord, hd]
  | cons r rest ih =>
    rw [List.foldl_cons, ih, coordStep_dlookup]
    unfold firstValidCoord
    rw [List.findSome?_cons]
    cases hd : dlookup m name with
    | some v => simp
    | none =>
      cases hv : vcoordOf name r <;> simp [hv, firstValidCoord]

theorem coordStep_keysNodup {m : List (String × Rat × Rat)} (r : Review)
    (h : keysNodup m) : keysNodup (coordStep m r) := by
  unfold coordStep
  rcases truthyStr r.display_name with _ | nm
  · exact h
  · rcases r.latitude with _ | lv
    · exact h
    · rcases r.longitude with _ | gv
      · cases lv <;> exact h
      · rcases lv with a | _
        · rcases gv with b | _
          · cases hd : (dlookup m nm).isSome with
            | true => simpa [hd] using h
            | false =>
              have hnone : dlookup m nm = none := by
                cases hx : dlookup m nm
                · rfl
                · rw [hx] at hd
                  cases hd
              have hnotmem : nm ∉ m.map Prod.fst := dlookup_eq_none_iff.mp hnone
              simp only [hd, if_false, Bool.false_eq_true]
              unfold keysNodup at h ⊢
              rw [List.map_append, List.nodup_append]
              exact ⟨h, List.nodup_singleton nm, by simpa using hnotmem⟩
          · cases hd : (dlookup m nm).isSome <;> simpa [hd, ite_self] using h
        · cases gv <;> simpa [ite_self] using h

theorem coordFold_keysNodup (batch : List Review) (m : List (String × Rat × Rat))
    (h : keysNodup m) : keysNodup (batch.foldl coordStep m) := by
  induction batch generalizing m with
  | nil => exact h
  | cons r rest ih => exact ih _ (coordStep_keysNodup r h)

/-- C2 amended: in the mesop data service, every emitted map marker is
positioned at the first coordinate pair, in original batch order, that
successfully parses to numbers for that name; later valid pairs are
ignored.  The Flask `index` route does not share this property (see the
counterexample theorem), so the amended claim restricts first-wins to
`fetch_processed_data`. -/
theorem claim2_first_valid_coordinate (batch : List Review) (mk : Marker)
    (h : mk ∈ restaurantsMapData batch) :
    firstValidCoord batch mk.name = some (mk.lat, mk.lng) := by
  unfold restaurantsMapData compileMarkers at h
  rw [List.mem_map] at h
  obtain ⟨e, he, hmk⟩ := h
  have hnodup : keysNodup (batch.foldl coordStep []) :=
    coordFold_keysNodup batch [] (by simp [keysNodup])
  have hlk : dlookup (batch.foldl coordStep []) e.1 = some e.2 :=
    dlookup_of_mem_nodup he hnodup
  have hfold := dlookup_coordFold batch [] e.1
  rw [hlk] at hfold
  subst hmk
  exact hfold.symm

/-- Witness for the amended C2 at a two-record batch whose first pair
wins. -/
theorem claim2_first_valid_coordinate_witness :
    ({ name := "A", lat := 1, lng := 1, avg_rating := 0, review_count := 0 } : Marker)
        ∈ restaurantsMapData [exC1, exC2]
  ∧ firstValidCoord [exC1, exC2]
      ({ name := "A", lat := 1, lng := 1, avg_rating := 0, review_count := 0 } : Marker).name =
      some (({ name := "A", lat := 1, lng := 1, avg_rating := 0, review_count := 0 } : Marker).lat,
        ({ name := "A", lat := 1, lng := 1, avg_rating := 0, review_count := 0 } : Marker).lng) :=
  ⟨by decide,
   claim2_first_valid_coordinate [exC1, exC2]
     { name := "A", lat := 1, lng := 1, avg_rating := 0, review_count := 0 } (by decide)⟩

/-- Counterexample to C2 as stated over the Flask `index` route: with two
records for name A carrying valid coordinates (1, 1) then (2, 2), the
route's marker sits at the later pair (2, 2), not at the first valid pair
(1, 1) — dict assignment overwrites, so last in-range valid wins there. -/
theorem claim2_cex_flask_overwrites :
    firstValidCoord [exC1, exC2] "A" = some (1, 1)
  ∧ appMapData [exC1, exC2] =
      [{ name := "A", lat := 2, lng := 2, avg_rating := 0, review_count := 0 }]
  ∧ ¬ ∃ mk ∈ appMapData [exC1, exC2], mk.name = "A" ∧ (mk.lat, mk.lng) = (1, 1) := by
  refine ⟨by decide, by decide, by decide⟩

/-- C10: a base name that offers at least one successfully parsed
coordinate pair but no rating that coerces to a number still yields a map
marker, carrying `avg_rating = 0.0` and `review_count = 0` — the marker
is not suppressed. -/
theorem claim10_zero_rating_marker (batch : List Review) (name : String)
    (a b : Rat) (r0 : Review) (hr0 : r0 ∈ batch)
    (hname : truthyStr r0.display_name = some name)
    (hlat : r0.latitude = some (RVal.num a)) (hlng : r0.longitude = some (RVal.num b))
    (hnorate : ∀ r ∈ batch, truthyStr r.display_name = some name →
      ∀ q, r.review_rating ≠ some (RVal.num q)) :
    ∃ mk ∈ restaurantsMapData batch, mk.name = name ∧ mk.avg_rating = 0 ∧ mk.review_count = 0 := by
  have hv : vcoordOf name r0 = some (a, b) := by
    unfold vcoordOf
    rw [hname, hlat, hlng]
    simp
  obtain ⟨p, hp⟩ : ∃ p, firstValidCoord batch name = some p := by
    cases hx : firstValidCoord batch name with
    | none =>
      have hall := List.findSome?_eq_none_iff.mp hx r0 hr0
      rw [hv] at hall
      cases hall
    | some p => exact ⟨p, rfl⟩
  have hlk : dlookup (batch.foldl coordStep []) name = some p := by
    have hfold := dlookup_coordFold batch [] name
    simpa [dlookup, hp] using hfold
  have hmem : (name, p) ∈ batch.foldl coordStep [] := mem_of_dlookup hlk
  have hagg : dlookup (mapAgg batch) name = none ∨
      dlookup (mapAgg batch) name = some ((0 : Rat), (0 : Nat)) := by
    unfold mapAgg
    exact dlookup_ratingFold_no_num (fun r => r.display_name) batch [] name hnorate (Or.inl rfl)
  refine ⟨{ name := name, lat := p.1, lng := p.2,
            avg_rating := (dlookup (averageRatings (mapAgg batch)) name).getD 0,
            review_count := ((dlookup (mapAgg batch) name).map fun pr => pr.2).getD 0 },
    ?_, rfl, ?_, ?_⟩
  · simp only [restaurantsMapData, compileMarkers, List.mem_map]
    exact ⟨(name, p), hmem, rfl⟩
  · rw [dlookup_averageRatings]
    rcases hagg with hz | hz <;> rw [hz] <;> simp
  · rcases hagg with hz | hz <;> rw [hz] <;> simp

/-- Witness for C10 at a one-record batch: name B has coordinates (7, 8)
and one uncoercible rating; its marker exists with zero average and
count. -/
theorem claim10_zero_rating_marker_witness :
    exBNoRate ∈ [exBNoRate] ∧
    (∃ mk ∈ restaurantsMapData [exBNoRate],
      mk.name = "B" ∧ mk.avg_rating = 0 ∧ mk.review_count = 0) :=
  ⟨by decide,
   claim10_zero_rating_marker [exBNoRate] "B" 7 8 exBNoRate (by decide) (by decide)
     (by decide) (by decide)
     (fun r hr hname q hq => by
       rw [List.mem_singleton.mp hr] at hq
       simp [exBNoRate] at hq)⟩

/-! ### Counter and top-token lemmas -/

theorem incrCounter_keys (c : List (String × Nat)) (k : String) :
    (incrCounter c k).map Prod.fst =
      if k ∈ c.map Prod.fst then c.map Prod.fst else c.map Prod.fst ++ [k] := by
  induction c with
  | nil => simp [incrCounter]
  | cons e rest ih =>
    obtain ⟨k1, v⟩ := e
    by_cases hk : k1 = k
    · simp [incrCounter, hk]
    · by_cases hmem : k ∈ rest.map Prod.fst
      · simp [incrCounter, hk, ih, hmem, Ne.symm hk]
      · simp [incrCounter, hk, ih, hmem, Ne.symm hk]

theorem incrCounter_keysNodup {c : List (String × Nat)} (k : String) (h : keysNodup c) :
    keysNodup (incrCounter c k) := by
  unfold keysNodup at h ⊢
  rw [incrCounter_keys]
  by_cases hmem : k ∈ c.map Prod.fst
  · simpa [hmem] using h
  · simp [hmem, List.nodup_append, h]

theorem tallyItems_keysNodup (l : List (Option String)) (c : List (String × Nat))
    (h : keysNodup c) :
    keysNodup (l.foldl
      (fun acc item =>
        match item with
        | some s => if s = "" then acc else incrCounter acc (pcToken s)
        | none => acc) c) := by
  induction l generalizing c with
  | nil => exact h
  | cons item rest ih =>
    rw [List.foldl_cons]
    apply ih
    rcases item with _ | s
    · exact h
    · by_cases hs : s = ""
      · simpa [hs] using h
      · simpa [hs] using incrCounter_keysNodup (pcToken s) h

theorem tallyPC_keysNodup {c : List (String × Nat)} (v : Option PCVal) (h : keysNodup c) :
    keysNodup (tallyPC c v) := by
  unfold tallyPC
  rcases v with _ | pv
  · exact h
  · rcases pv with s | l
    · by_cases hs : s = ""
      · simpa [hs] using h
      · simpa [hs] using incrCounter_keysNodup (pcToken s) h
    · by_cases hl : l = []
      · simpa [hl] using h
      · simpa [hl] using tallyItems_keysNodup l c h

theorem tallyFold_keysNodup (f : Review → Option PCVal) (batch : List Review)
    (c : List (String × Nat)) (h : keysNodup c) :
    keysNodup (batch.foldl (fun acc r => tallyPC acc (f r)) c) := by
  induction batch generalizing c with
  | nil => exact h
  | cons r rest ih => exact ih _ (tallyPC_keysNodup (f r) h)

theorem topTokens_mem {c : List (String × Nat)} {kv : String × Nat}
    (h : kv ∈ topTokens c) : kv ∈ c := by
  unfold topTokens at h
  by_cases hc : c = []
  · simp [hc] at h
  · rw [if_neg hc] at h
    have h1 := List.mem_filter.mp h
    have h2 : kv ∈ mostCommon 10 c := h1.1
    unfold mostCommon at h2
    have h3 : kv ∈ List.insertionSort byCountDesc c := List.take_subset _ _ h2
    exact (List.perm_insertionSort byCountDesc c).mem_iff.mp h3

theorem topTokens_filter_props {c : List (String × Nat)} {kv : String × Nat}
    (h : kv ∈ topTokens c) :
    1 ≤ kv.2 ∧ kv.1 ≠ "" ∧ pyStrip kv.1 ≠ "" ∧ pyLower kv.1 ≠ "empty" := by
  unfold topTokens at h
  by_cases hc : c = []
  · simp [hc] at h
  · rw [if_neg hc] at h
    have h1 := List.mem_filter.mp h
    have h2 := of_decide_eq_true h1.2
    exact ⟨h2.1, h2.2.1, h2.2.2.1, h2.2.2.2⟩

theorem topTokens_sorted (c : List (String × Nat)) :
    (topTokens c).Pairwise byCountDesc := by
  unfold topTokens
  by_cases hc : c = []
  · simp [hc]
  · rw [if_neg hc]
    apply List.Pairwise.filter
    exact (List.sorted_insertionSort byCountDesc c).sublist (List.take_sublist _ _)

theorem topTokens_length (c : List (String × Nat)) : (topTokens c).length ≤ 10 := by
  unfold topTokens
  by_cases hc : c = []
  · simp [hc]
  · rw [if_neg hc]
    exact Nat.le_trans (List.length_filter_le _ _) (List.length_take_le _ _)

/-- Counterexample to C6 as stated: with eleven distinct pro tokens whose
first is the placeholder "empty", the filter runs after `most_common(10)`
truncation, so the valid token "a10" (count 1 in the counter) is dropped
and only nine pairs are returned — not "exactly the 10 highest-count
tokens after excluding" the placeholder. -/
theorem claim6_cex_truncate_before_filter :
    (processReviewData [exTopPros]).top_pros =
      [("a1", 1), ("a2", 1), ("a3", 1), ("a4", 1), ("a5", 1),
       ("a6", 1), ("a7", 1), ("a8", 1), ("a9", 1)]
  ∧ dlookup (prosCounts [exTopPros]) "a10" = some 1
  ∧ (processReviewData [exTopPros]).top_pros.length = 9 :=
  ⟨by decide, by decide, by decide⟩

/-- C6 amended: for either field, the aggregator returns the pairs that
survive the empty/placeholder filter among the ten highest-count
normalized tokens (stable descending order); the filter is applied after
truncation to ten, so fewer than ten valid tokens may be returned.  Every
returned pair has count at least one, a token that is non-empty and not
the placeholder, carries the token's true tally, and the list is sorted
by count descending with length at most ten. -/
theorem claim6_top_tokens (batch : List Review) (p cn : String × Nat)
    (hp : p ∈ (processReviewData batch).top_pros)
    (hc : cn ∈ (processReviewData batch).top_cons) :
    (processReviewData batch).top_pros.length ≤ 10
  ∧ (processReviewData batch).top_cons.length ≤ 10
  ∧ (processReviewData batch).top_pros.Pairwise byCountDesc
  ∧ (processReviewData batch).top_cons.Pairwise byCountDesc
  ∧ 1 ≤ p.2 ∧ p.1 ≠ "" ∧ pyStrip p.1 ≠ "" ∧ pyLower p.1 ≠ "empty"
  ∧ dlookup (prosCounts batch) p.1 = some p.2
  ∧ 1 ≤ cn.2 ∧ cn.1 ≠ "" ∧ pyStrip cn.1 ≠ "" ∧ pyLower cn.1 ≠ "empty"
  ∧ dlookup (consCounts batch) cn.1 = some cn.2 := by
  have hp2 : p ∈ topTokens (prosCounts batch) := by
    rw [processReviewData_components] at hp
    exact hp
  have hc2 : cn ∈ topTokens (consCounts batch) := by
    rw [processReviewData_components] at hc
    exact hc
  have hfp := topTokens_filter_props hp2
  have hfc := topTokens_filter_props hc2
  have hmp := topTokens_mem hp2
  have hmc := topTokens_mem hc2
  have hndp : keysNodup (prosCounts batch) :=
    tallyFold_keysNodup (fun r => r.review_pros) batch [] (by simp [keysNodup])
  have hndc : keysNodup (consCounts batch) :=
    tallyFold_keysNodup (fun r => r.review_cons) batch [] (by simp [keysNodup])
  rw [processReviewData_components]
  exact ⟨topTokens_length _, topTokens_length _, topTokens_sorted _, topTokens_sorted _,
    hfp.1, hfp.2.1, hfp.2.2.1, hfp.2.2.2, dlookup_of_mem_nodup hmp hndp,
    hfc.1, hfc.2.1, hfc.2.2.1, hfc.2.2.2, dlookup_of_mem_nodup hmc hndc⟩

/-- Witness for the amended C6 at a one-record batch with one pro and one
con. -/
theorem claim6_top_tokens_witness :
    ("good", 1) ∈ (processReviewData [exPlain]).top_pros
  ∧ ("slow", 1) ∈ (processReviewData [exPlain]).top_cons
  ∧ ((processReviewData [exPlain]).top_pros.length ≤ 10
    ∧ (processReviewData [exPlain]).top_cons.length ≤ 10
    ∧ (processReviewData [exPlain]).top_pros.Pairwise byCountDesc
    ∧ (processReviewData [exPlain]).top_cons.Pairwise byCountDesc
    ∧ 1 ≤ ("good", 1).2 ∧ ("good", 1).1 ≠ "" ∧ pyStrip ("good", 1).1 ≠ ""
    ∧ pyLower ("good", 1).1 ≠ "empty"
    ∧ dlookup (prosCounts [exPlain]) ("good", 1).1 = some ("good", 1).2
    ∧ 1 ≤ ("slow", 1).2 ∧ ("slow", 1).1 ≠ "" ∧ pyStrip ("slow", 1).1 ≠ ""
    ∧ pyLower ("slow", 1).1 ≠ "empty"
    ∧ dlookup (consCounts [exPlain]) ("slow", 1).1 = some ("slow", 1).2) :=
  ⟨by decide, by decide,
   claim6_top_tokens [exPlain] ("good", 1) ("slow", 1) (by decide) (by decide)⟩

/-! ### Normalizer lemmas -/

theorem monthlyStep_unparseable (m : List (String × Nat × Rat)) (dtv : Option DtVal)
    (rv : Option RVal) (hbad : dtNorm dtv = none) : monthlyStep m dtv rv = m := by
  rcases dtv with _ | dv
  · rcases rv with _ | rval <;> rfl
  · rcases rv with _ | rval
    · rfl
    · have hnorm : (if truthyDt dv = true then normalizeDt dv else none) = none := by
        simpa [dtNorm] using hbad
      by_cases ht : truthyDt dv = true
      · have hbad2 : normalizeDt dv = none := by
          rw [if_pos ht] at hnorm
          exact hnorm
        simp [monthlyStep, ht, hbad2]
      · simp [monthlyStep, ht]

theorem prosCounts_datetime_irrelevant (batch : List Review) (f : Review → Option DtVal) :
    prosCounts (batch.map fun r => { r with review_datetime := f r }) = prosCounts batch := by
  unfold prosCounts
  rw [List.foldl_map]

theorem consCounts_datetime_irrelevant (batch : List Review) (f : Review → Option DtVal) :
    consCounts (batch.map fun r => { r with review_datetime := f r }) = consCounts batch := by
  unfold consCounts
  rw [List.foldl_map]

theorem ratingsAgg_datetime_irrelevant (batch : List Review) (f : Review → Option DtVal) :
    ratingsAgg (batch.map fun r => { r with review_datetime := f r }) = ratingsAgg batch := by
  unfold ratingsAgg
  rw [List.foldl_map]

/-- C7: the normalizer passes native datetimes through; it parses the
documented string shapes — a bare date, `T`- or space-separated date and
time, with or without fractional seconds, with or without a `Z` or
numeric offset suffix — and rejects other strings and non-datetime
shapes; a record whose timestamp fails to normalize contributes nothing
to the monthly buckets, while the pros, cons and rating outputs do not
depend on the timestamp field at all. -/
theorem claim7_timestamp_normalizer (d : PyDateTime) (batch : List Review)
    (f : Review → Option DtVal) (m : List (String × Nat × Rat))
    (dtv : Option DtVal) (rv : Option RVal)
    (hbad : dtNorm dtv = none) :
    normalizeDt (DtVal.dt d) = some d
  ∧ parseIso "2023-01-10" = some ⟨2023, 1, 10, 0, 0, 0⟩
  ∧ parseIso "2023-01-10T12:30:05" = some ⟨2023, 1, 10, 12, 30, 5⟩
  ∧ parseIso "2023-01-10 12:30:05.123456" = some ⟨2023, 1, 10, 12, 30, 5⟩
  ∧ parseIso "2023-01-10T12:30:05Z" = some ⟨2023, 1, 10, 12, 30, 5⟩
  ∧ parseIso "2023-01-10T12:30:05+02:00" = some ⟨2023, 1, 10, 12, 30, 5⟩
  ∧ parseIso "not a date" = none
  ∧ parseIso "" = none
  ∧ normalizeDt DtVal.other = none
  ∧ monthlyStep m dtv rv = m
  ∧ (processReviewData (batch.map fun r => { r with review_datetime := f r })).top_pros
      = (processReviewData batch).top_pros
  ∧ (processReviewData (batch.map fun r => { r with review_datetime := f r })).top_cons
      = (processReviewData batch).top_cons
  ∧ (processReviewData (batch.map fun r =>
        { r with review_datetime := f r })).average_restaurant_ratings
      = (processReviewData batch).average_restaurant_ratings := by
  refine ⟨rfl, by decide, by decide, by decide, by decide, by decide, by decide, by decide,
    rfl, monthlyStep_unparseable m dtv rv hbad, ?_, ?_, ?_⟩
  · rw [processReviewData_components, processReviewData_components,
      prosCounts_datetime_irrelevant]
  · rw [processReviewData_components, processReviewData_components,
      consCounts_datetime_irrelevant]
  · rw [processReviewData_components, processReviewData_components,
      ratingsAgg_datetime_irrelevant]

/-- Witness for C7 at concrete values: a native datetime, a concrete
batch, a timestamp-erasing rewrite, and an unparseable string value. -/
theorem claim7_timestamp_normalizer_witness :
    dtNorm (some (DtVal.str "nope")) = none
  ∧ (normalizeDt (DtVal.dt ⟨2023, 1, 10, 0, 0, 0⟩) = some ⟨2023, 1, 10, 0, 0, 0⟩
    ∧ parseIso "2023-01-10" = some ⟨2023, 1, 10, 0, 0, 0⟩
    ∧ parseIso "2023-01-10T12:30:05" = some ⟨2023, 1, 10, 12, 30, 5⟩
    ∧ parseIso "2023-01-10 12:30:05.123456" = some ⟨2023, 1, 10, 12, 30, 5⟩
    ∧ parseIso "2023-01-10T12:30:05Z" = some ⟨2023, 1, 10, 12, 30, 5⟩
    ∧ parseIso "2023-01-10T12:30:05+02:00" = some ⟨2023, 1, 10, 12, 30, 5⟩
    ∧ parseIso "not a date" = none
    ∧ parseIso "" = none
    ∧ normalizeDt DtVal.other = none
    ∧ monthlyStep [] (some (DtVal.str "nope")) (some (RVal.num 5)) = []
    ∧ (processReviewData ([exPlain].map fun r =>
          { r with review_datetime := (fun _ => none) r })).top_pros
        = (processReviewData [exPlain]).top_pros
    ∧ (processReviewData ([exPlain].map fun r =>
          { r with review_datetime := (fun _ => none) r })).top_cons
        = (processReviewData [exPlain]).top_cons
    ∧ (processReviewData ([exPlain].map fun r =>
          { r with review_datetime := (fun _ => none) r })).average_restaurant_ratings
        = (processReviewData [exPlain]).average_restaurant_ratings) :=
  ⟨by decide,
   claim7_timestamp_normalizer ⟨2023, 1, 10, 0, 0, 0⟩ [exPlain] (fun _ => none) []
     (some (DtVal.str "nope")) (some (RVal.num 5)) (by decide)⟩

/-- C8: the full pipeline leaves every input record unchanged — the
augmented batch has the same length and each augmented record is a copy
that preserves every original field (only the derived `ui_display_name`
is assigned, on the copy); all aggregation steps only read the batch. -/
theorem claim8_no_input_mutation (batch : List Review) (i : Nat)
    (h1 : i < batch.length) (h2 : i < (augmentReviews batch).length) :
    (augmentReviews batch).length = batch.length
  ∧ ((augmentReviews batch).get ⟨i, h2⟩).display_name = (batch.get ⟨i, h1⟩).display_name
  ∧ ((augmentReviews batch).get ⟨i, h2⟩).city = (batch.get ⟨i, h1⟩).city
  ∧ ((augmentReviews batch).get ⟨i, h2⟩).review_rating = (batch.get ⟨i, h1⟩).review_rating
  ∧ ((augmentReviews batch).get ⟨i, h2⟩).review_pros = (batch.get ⟨i, h1⟩).review_pros
  ∧ ((augmentReviews batch).get ⟨i, h2⟩).review_cons = (batch.get ⟨i, h1⟩).review_cons
  ∧ ((augmentReviews batch).get ⟨i, h2⟩).review_text = (batch.get ⟨i, h1⟩).review_text
  ∧ ((augmentReviews batch).get ⟨i, h2⟩).review_datetime = (batch.get ⟨i, h1⟩).review_datetime
  ∧ ((augmentReviews batch).get ⟨i, h2⟩).latitude = (batch.get ⟨i, h1⟩).latitude
  ∧ ((augmentReviews batch).get ⟨i, h2⟩).longitude = (batch.get ⟨i, h1⟩).longitude := by
  have hget : (augmentReviews batch).get ⟨i, h2⟩ =
      { batch.get ⟨i, h1⟩ with ui_display_name := uiName batch (batch.get ⟨i, h1⟩) } := by
    unfold augmentReviews
    rw [List.get_map]
  rw [hget]
  exact ⟨by simp [augmentReviews], rfl, rfl, rfl, rfl, rfl, rfl, rfl, rfl, rfl⟩

/-- Witness for C8 at a concrete two-record batch and index 0. -/
theorem claim8_no_input_mutation_witness :
    (0 < [exAX, exAY].length) ∧ (0 < (augmentReviews [exAX, exAY]).length)
  ∧ ((augmentReviews [exAX, exAY]).length = [exAX, exAY].length
    ∧ ((augmentReviews [exAX, exAY]).get ⟨0, by decide⟩).display_name
        = ([exAX, exAY].get ⟨0, by decide⟩).display_name
    ∧ ((augmentReviews [exAX, exAY]).get ⟨0, by decide⟩).city
        = ([exAX, exAY].get ⟨0, by decide⟩).city
    ∧ ((augmentReviews [exAX, exAY]).get ⟨0, by decide⟩).review_rating
        = ([exAX, exAY].get ⟨0, by decide⟩).review_rating
    ∧ ((augmentReviews [exAX, exAY]).get ⟨0, by decide⟩).review_pros
        = ([exAX, exAY].get ⟨0, by decide⟩).review_pros
    ∧ ((augmentReviews [exAX, exAY]).get ⟨0, by decide⟩).review_cons
        = ([exAX, exAY].get ⟨0, by decide⟩).review_cons
    ∧ ((augmentReviews [exAX, exAY]).get ⟨0, by decide⟩).review_text
        = ([exAX, exAY].get ⟨0, by decide⟩).review_text
    ∧ ((augmentReviews [exAX, exAY]).get ⟨0, by decide⟩).review_datetime
        = ([exAX, exAY].get ⟨0, by decide⟩).review_datetime
    ∧ ((augmentReviews [exAX, exAY]).get ⟨0, by decide⟩).latitude
        = ([exAX, exAY].get ⟨0, by decide⟩).latitude
    ∧ ((augmentReviews [exAX, exAY]).get ⟨0, by decide⟩).longitude
        = ([exAX, exAY].get ⟨0, by decide⟩).longitude) :=
  ⟨by decide, by decide, claim8_no_input_mutation [exAX, exAY] 0 (by decide) (by decide)⟩
